import Mathlib

/-!
# Verification of the Gradient Model surface-roughness implementation

Shallow embedding of `src/gradientmodel.py` (Gold & Helmreich gradient model,
closed form of Grujic 2018).  The external special-function capability
(`mpmath.hyp2f1`, `mpmath.hyp3f2`) is modelled as an abstract pair of
functions on ℂ, packaged in the structure `Hyp`; every embedded routine is
parameterised by it.  Real/complex machine floats are modelled by ℝ/ℂ;
`numpy` arrays by `List ℝ`; the scalar-vs-array runtime dispatch of the
Python code by the inductive `PyVal`.
-/

open Complex Filter Real

namespace GradientModel

noncomputable section

/-- External capability: the two hypergeometric evaluators consumed by the
code (`mpmath.hyp2f1` and `mpmath.hyp3f2`), complex parameters and argument. -/
structure Hyp where
  hyp2f1 : ℂ → ℂ → ℂ → ℂ → ℂ
  hyp3f2 : ℂ → ℂ → ℂ → ℂ → ℂ → ℂ → ℂ

/-- `scipy.constants.mu_0`, the vacuum permeability (CODATA SI value). -/
def mu_0 : ℝ := 1.25663706212e-6

/-- Principal-branch complex square root, as computed by `numpy.sqrt` on a
complex argument: `z ^ (1/2)` via the principal power. -/
def csqrt (z : ℂ) : ℂ := z ^ ((1 : ℂ) / 2)

/-- `xi = 0.5` (constant in `mag_field` / `surface_impedance`). -/
def xi : ℝ := 0.5

/-- `chi = sqrt(2) * rq`. -/
def chi (rq : ℝ) : ℝ := Real.sqrt 2 * rq

/-- `alpha = (1 + 1j) / 2 * rq * sqrt(mu_0 * w * sigma0)` with `w = 2*pi*f`
(lines 56 and 110 of the source, textually identical at both sites). -/
def alpha (f rq sigma0 : ℝ) : ℂ :=
  (1 + I) / 2 * (rq : ℝ) * (Real.sqrt (mu_0 * (2 * π * f) * sigma0) : ℝ)

/-- `beta = 0.5 * (sqrt(1 + 4 * alpha ** 2) - 1)` (lines 57 and 111,
textually identical at both sites); complex square root. -/
def beta (f rq sigma0 : ℝ) : ℂ :=
  0.5 * (csqrt (1 + 4 * alpha f rq sigma0 ^ 2) - 1)

/-- `zeta = 1 / (1 + exp(2 * (x / chi + xi)))` (lines 60 and 114). -/
def zeta (x rq : ℝ) : ℝ :=
  1 / (1 + Real.exp (2 * (x / chi rq + xi)))

/-- Runtime value shapes the Python code distinguishes: a numeric scalar, a
`numpy` ndarray, or a plain Python sequence (e.g. a list). -/
inductive PyVal where
  | scalar : ℝ → PyVal
  | ndarr : List ℝ → PyVal
  | pylist : List ℝ → PyVal

/-- The shape test `isinstance(v, ndarray) and len(v) > 1` (lines 42-43, 68,
73, 98): true exactly for a multi-element ndarray. -/
def isMultiArray : PyVal → Bool
  | .ndarr vs => decide (1 < vs.length)
  | _ => false

/-- Whether a value is a plain Python sequence (unsupported by the float and
`numpy` arithmetic of lines 53 and 60, which raises `TypeError` on it). -/
def isPyList : PyVal → Bool
  | .pylist _ => true
  | _ => false

/-- Numeric content used when a value flows down a scalar arithmetic path. -/
def num : PyVal → ℝ
  | .scalar v => v
  | .ndarr vs => vs.headD 0
  | .pylist vs => vs.headD 0

/-- Element list of a value used when it flows down an array path. -/
def elems : PyVal → List ℝ
  | .scalar v => [v]
  | .ndarr vs => vs
  | .pylist vs => vs

/-- Error taxonomy.  `invalidInputShape` is the `ValueError` the code raises
itself at line 46; `typeError` is Python's `TypeError`, raised by the dynamic
numerics when an operand has an unsupported type (`float * list` in
`w = 2 * pi * f` at line 53, `list / float` inside `zeta` at line 60, and
`mpmath.hyp2f1` rejecting ndarray arguments at lines 72/76/78);
`domainDegeneracy` is modelled from the spec: the spec's §7 DomainDegeneracy
computation error, which has no counterpart in the code. -/
inductive Err where
  | invalidInputShape
  | typeError
  | domainDegeneracy
deriving DecidableEq

/-- Which of the three evaluation branches of `mag_field` runs (lines 68-78):
the position loop, the frequency loop, or the single scalar evaluation. -/
inductive Branch where
  | xloop
  | floop
  | scalarPath
deriving DecidableEq

/-- Branch selection of `mag_field` (lines 42-46 and 68-77): the shape check
and the subsequent `if`/`elif`/`else` dispatch, separated from the numeric
work. -/
def mag_branch (x f : PyVal) : Except Err Branch :=
  if isMultiArray x && isMultiArray f then .error .invalidInputShape
  else if isMultiArray x then .ok .xloop
  else if isMultiArray f then .ok .floop
  else .ok .scalarPath

/-- Scalar branch of `mag_field` (line 78):
`mag = zeta ** alpha * hyp2f1(a1, a2, b1, zeta)` with `a1 = alpha + beta`,
`a2 = alpha - beta - 1`, `b1 = 1 + 2 * alpha`. -/
def mag_scalar (H : Hyp) (x f rq sigma0 : ℝ) : ℂ :=
  let a := alpha f rq sigma0
  let b := beta f rq sigma0
  let a1 := a + b
  let a2 := a - b - 1
  let b1 := 1 + 2 * a
  let z := zeta x rq
  (z : ℂ) ^ a * H.hyp2f1 a1 a2 b1 (z : ℂ)

/-- Position-array branch of `mag_field` (lines 68-72): `alpha`, `beta`
scalar, `zeta` elementwise over the positions, then
`mag[i] = _z ** alpha * hyp2f1(a1, a2, b1, _z)` per element of `zeta`. -/
def mag_xarray (H : Hyp) (xs : List ℝ) (f rq sigma0 : ℝ) : List ℂ :=
  let a := alpha f rq sigma0
  let b := beta f rq sigma0
  let a1 := a + b
  let a2 := a - b - 1
  let b1 := 1 + 2 * a
  let zs := xs.map (fun x => zeta x rq)
  zs.map (fun (z : ℝ) => (z : ℂ) ^ a * H.hyp2f1 a1 a2 b1 (z : ℂ))

/-- Frequency-array branch of `mag_field` (lines 73-76): `alpha`, `beta`,
`a1`, `a2`, `b1` elementwise over the frequencies, `zeta` scalar, then
`mag[i] = zeta ** alpha[i] * hyp2f1(a1[i], a2[i], b1[i], zeta)`. -/
def mag_farray (H : Hyp) (x : ℝ) (fs : List ℝ) (rq sigma0 : ℝ) : List ℂ :=
  let alphas := fs.map (fun f => alpha f rq sigma0)
  let betas := alphas.map (fun a => 0.5 * (csqrt (1 + 4 * a ^ 2) - 1))
  let a1s := List.zipWith (fun a b => a + b) alphas betas
  let a2s := List.zipWith (fun a b => a - b - 1) alphas betas
  let b1s := alphas.map (fun a => 1 + 2 * a)
  let z := zeta x rq
  List.zipWith (fun (a : ℂ) (p : ℂ × ℂ × ℂ) =>
      (z : ℂ) ^ a * H.hyp2f1 p.1 p.2.1 p.2.2 (z : ℂ))
    alphas (List.zipWith (fun a1 (p : ℂ × ℂ) => (a1, p)) a1s
      (List.zipWith (fun a2 b1 => (a2, b1)) a2s b1s))

/-- `mag_field(x, f, rq, sigma0)` (lines 28-80): the shape check of lines
42-46, then the Python execution of the numeric work, including its
dynamic-typing failures.  A plain list operand raises `TypeError` in
`w = 2 * pi * f` (line 53, when `f` is a list) or in `x / chi` inside `zeta`
(line 60, when `x` is a list), before the branch dispatch is reached.
`mpmath.hyp2f1` accepts only numeric scalars (`int`/`float`/`complex` and
their `numpy` scalar subclasses) and raises `TypeError` on any ndarray
argument; hence an ndarray of length ≤ 1 anywhere yields `TypeError`: on the
scalar branch (line 78) `zeta` (from ndarray `x`) or `a1`/`a2`/`b1` (from
ndarray `f`) is a length-≤1 ndarray, and on the loop branches (lines 72, 76)
the quantities derived from the other, length-≤1 ndarray input are.  The
loops succeed exactly when the non-array input is a true scalar. -/
def mag_field (H : Hyp) (x f : PyVal) (rq sigma0 : ℝ) :
    Except Err (ℂ ⊕ List ℂ) :=
  if isMultiArray x && isMultiArray f then .error .invalidInputShape
  else if isPyList f then .error .typeError
  else if isPyList x then .error .typeError
  else
    match x, f with
    | .scalar xv, .scalar fv => .ok (.inl (mag_scalar H xv fv rq sigma0))
    | .ndarr xs, .scalar fv =>
        if 1 < xs.length then .ok (.inr (mag_xarray H xs fv rq sigma0))
        else .error .typeError
    | .scalar xv, .ndarr fs =>
        if 1 < fs.length then .ok (.inr (mag_farray H xv fs rq sigma0))
        else .error .typeError
    | _, _ => .error .typeError

/-- Scalar branch of `surface_impedance` (lines 98-138 with `f` scalar):
`x0` defaults to `-5 * rq`; `f1`, `f0` are the two `hyp3f2` evaluations with
`a1 = 1 + alpha - beta`, `a2 = 2 + alpha + beta`, `a3 = alpha`,
`b1 = 1 + 2 * alpha`, `b2 = 1 + alpha`;
`bb = chi / 2 * zeta ** alpha * (zeta / (1 + alpha) * f1 - f0 / alpha)`;
result `-1j * mu_0 * w * bb / mag`. -/
def surface_impedance_scalar (H : Hyp) (f rq : ℝ) (x0 : Option ℝ)
    (sigma0 : ℝ) : ℂ :=
  let c := chi rq
  let x0v := x0.getD (-5 * rq)
  let w := 2 * π * f
  let a := alpha f rq sigma0
  let b := beta f rq sigma0
  let z := zeta x0v rq
  let mag := mag_scalar H x0v f rq sigma0
  let a1 := 1 + a - b
  let a2 := 2 + a + b
  let a3 := a
  let b1 := 1 + 2 * a
  let b2 := 1 + a
  let f1 := H.hyp3f2 a1 a2 (a3 + 1) b1 (b2 + 1) (z : ℂ)
  let f0 := H.hyp3f2 a1 a2 a3 b1 b2 (z : ℂ)
  let bb := (c : ℝ) / 2 * (z : ℂ) ^ a * ((z : ℝ) / (1 + a) * f1 - f0 / a);
  -I * (mu_0 : ℂ) * (w : ℂ) * bb / mag

/-- Frequency-array branch of `surface_impedance` (lines 126-132): `alpha`,
`beta` elementwise over the frequencies, `zeta` and `chi` fixed at the
single position `x0`, `mag` the frequency-array branch of `mag_field`,
the `f1[i]`/`f0[i]` loop, and the elementwise `bb` and final division. -/
def surface_impedance_batch (H : Hyp) (fs : List ℝ) (rq : ℝ) (x0 : Option ℝ)
    (sigma0 : ℝ) : List ℂ :=
  let c := chi rq
  let x0v := x0.getD (-5 * rq)
  let ws := fs.map (fun f => 2 * π * f)
  let alphas := fs.map (fun f => alpha f rq sigma0)
  let betas := alphas.map (fun a => 0.5 * (csqrt (1 + 4 * a ^ 2) - 1))
  let z := zeta x0v rq
  let mags := mag_farray H x0v fs rq sigma0
  let a1s := List.zipWith (fun a b => 1 + a - b) alphas betas
  let a2s := List.zipWith (fun a b => 2 + a + b) alphas betas
  let a3s := alphas
  let b1s := alphas.map (fun a => 1 + 2 * a)
  let b2s := alphas.map (fun a => 1 + a)
  let f1s := List.zipWith (fun (p : ℂ × ℂ) (q : ℂ × ℂ × ℂ) =>
      H.hyp3f2 p.1 p.2 (q.1 + 1) q.2.1 (q.2.2 + 1) (z : ℂ))
    (List.zipWith (fun a1 a2 => (a1, a2)) a1s a2s)
    (List.zipWith (fun a3 (p : ℂ × ℂ) => (a3, p)) a3s
      (List.zipWith (fun b1 b2 => (b1, b2)) b1s b2s))
  let f0s := List.zipWith (fun (p : ℂ × ℂ) (q : ℂ × ℂ × ℂ) =>
      H.hyp3f2 p.1 p.2 q.1 q.2.1 q.2.2 (z : ℂ))
    (List.zipWith (fun a1 a2 => (a1, a2)) a1s a2s)
    (List.zipWith (fun a3 (p : ℂ × ℂ) => (a3, p)) a3s
      (List.zipWith (fun b1 b2 => (b1, b2)) b1s b2s))
  let bbs := List.zipWith (fun (a : ℂ) (p : ℂ × ℂ) =>
      (c : ℝ) / 2 * (z : ℂ) ^ a * ((z : ℝ) / (1 + a) * p.1 - p.2 / a))
    alphas (List.zipWith (fun f1 f0 => (f1, f0)) f1s f0s)
  List.zipWith (fun (w : ℝ) (p : ℂ × ℂ) => -I * (mu_0 : ℂ) * (w : ℂ) * p.1 / p.2)
    ws (List.zipWith (fun bb mag => (bb, mag)) bbs mags)

/-- `surface_impedance(f, rq, x0, sigma0)` (lines 83-138): the
`f_is_array` test selects the batch or the scalar branch. -/
def surface_impedance (H : Hyp) (f : PyVal) (rq : ℝ) (x0 : Option ℝ)
    (sigma0 : ℝ) : Except Err (ℂ ⊕ List ℂ) :=
  if isMultiArray f then
    .ok (.inr (surface_impedance_batch H (elems f) rq x0 sigma0))
  else
    .ok (.inl (surface_impedance_scalar H (num f) rq x0 sigma0))

/-- `rough_properties(f, rq, x0, sigma0)` (lines 141-167), per-element
semantics: `w = 2*pi*f`, `zs_rough = surface_impedance(...)`,
`cond_eff = mu_0 * w / (2 * zs_rough.real ** 2)`,
`ur_eff = 2 * sigma0 * zs_rough.imag ** 2 / w / mu_0`. -/
def rough_properties (H : Hyp) (f rq : ℝ) (x0 : Option ℝ) (sigma0 : ℝ) :
    ℂ × ℝ × ℝ :=
  let w := 2 * π * f
  let zs_rough := surface_impedance_scalar H f rq x0 sigma0
  (zs_rough, mu_0 * w / (2 * zs_rough.re ^ 2),
    2 * sigma0 * zs_rough.im ^ 2 / w / mu_0)

/-- A concrete instantiation of the external capability, used to evaluate
the embedding at concrete inputs. -/
def Htriv : Hyp := ⟨fun _ _ _ _ => 1, fun _ _ _ _ _ _ => 1⟩

/-! ## Spec-side definitions

The following definitions are written from the words of the specification
(§4.1-§4.4), for comparison against the embedded source code above. -/

/-- Spec §4.1: `alpha = (1+i)/2 · rq · sqrt(mu0 · 2π·f · sigma0)`. -/
def alpha_spec (f rq sigma0 : ℝ) : ℂ :=
  (1 + I) / 2 * (rq : ℝ) * (Real.sqrt (mu_0 * (2 * π * f) * sigma0) : ℝ)

/-- Spec §4.1: `beta = 0.5 · (sqrt(1 + 4·alpha²) − 1)`, principal branch. -/
def beta_spec (f rq sigma0 : ℝ) : ℂ :=
  0.5 * (csqrt (1 + 4 * alpha_spec f rq sigma0 ^ 2) - 1)

/-- Spec §4.1: `zeta(x) = 1 / (1 + exp(2·(x/chi + 0.5)))`, `chi = sqrt(2)·rq`. -/
def zeta_spec (x rq : ℝ) : ℝ :=
  1 / (1 + Real.exp (2 * (x / (Real.sqrt 2 * rq) + 0.5)))

/-- Spec §4.2: `field = zeta^alpha · ₂F₁(alpha+beta, alpha−beta−1;
1+2·alpha; zeta)`. -/
def mag_field_spec (H : Hyp) (x f rq sigma0 : ℝ) : ℂ :=
  let a := alpha_spec f rq sigma0
  let b := beta_spec f rq sigma0
  let z := zeta_spec x rq
  (z : ℂ) ^ a * H.hyp2f1 (a + b) (a - b - 1) (1 + 2 * a) (z : ℂ)

/-- Spec §4.3: antiderivative and impedance.
`f1 = ₃F₂(1+alpha−beta, 2+alpha+beta, alpha+1; 1+2·alpha, alpha+2; zeta)`,
`f0 = ₃F₂(1+alpha−beta, 2+alpha+beta, alpha; 1+2·alpha, 1+alpha; zeta)`,
`bb = (chi/2) · zeta^alpha · ( zeta/(1+alpha) · f1 − f0/alpha )`,
`Z = −i · mu0 · (2π·f) · bb / mag`, `mag` the field evaluator at `x0`. -/
def surface_impedance_spec (H : Hyp) (f rq x0 sigma0 : ℝ) : ℂ :=
  let a := alpha_spec f rq sigma0
  let b := beta_spec f rq sigma0
  let c := Real.sqrt 2 * rq
  let z := zeta_spec x0 rq
  let f1 := H.hyp3f2 (1 + a - b) (2 + a + b) (a + 1) (1 + 2 * a) (a + 2) (z : ℂ)
  let f0 := H.hyp3f2 (1 + a - b) (2 + a + b) a (1 + 2 * a) (1 + a) (z : ℂ)
  let mag := mag_field_spec H x0 f rq sigma0
  let bb := (c : ℂ) / 2 * (z : ℂ) ^ a * ((z : ℂ) / (1 + a) * f1 - f0 / a);
  -I * (mu_0 : ℂ) * ((2 * π * f : ℝ) : ℂ) * bb / mag

/-! ## Helper lemmas shared between the claim theorems -/

/-- The frequency-loop branch of `mag_field` is the elementwise map of the
scalar branch over the frequency list. -/
theorem mag_farray_eq_map (H : Hyp) (x : ℝ) (fs : List ℝ) (rq sigma0 : ℝ) :
    mag_farray H x fs rq sigma0 =
      fs.map (fun f => mag_scalar H x f rq sigma0) := by
  simp [mag_farray, mag_scalar, beta, List.map_map, List.zipWith_map,
    List.zipWith_same, Function.comp_def]

/-- The position-loop branch of `mag_field` is the elementwise map of the
scalar branch over the position list. -/
theorem mag_xarray_eq_map (H : Hyp) (xs : List ℝ) (f rq sigma0 : ℝ) :
    mag_xarray H xs f rq sigma0 =
      xs.map (fun x => mag_scalar H x f rq sigma0) := by
  simp only [mag_xarray, mag_scalar, List.map_map, Function.comp_def]

/-- The frequency-array branch of `surface_impedance` is the elementwise map
of the scalar branch over the frequency list. -/
theorem surface_impedance_batch_eq_map (H : Hyp) (fs : List ℝ) (rq : ℝ)
    (x0 : Option ℝ) (sigma0 : ℝ) :
    surface_impedance_batch H fs rq x0 sigma0 =
      fs.map (fun f => surface_impedance_scalar H f rq x0 sigma0) := by
  simp [surface_impedance_batch, surface_impedance_scalar, beta,
    mag_farray_eq_map, mag_scalar, List.map_map, List.zipWith_map,
    List.zipWith_same, Function.comp_def]

/-- `mag_scalar` agrees with the spec's field formula (§4.2). -/
theorem mag_scalar_eq_spec (H : Hyp) (x f rq sigma0 : ℝ) :
    mag_scalar H x f rq sigma0 = mag_field_spec H x f rq sigma0 := rfl

/-! ## Claim theorems -/

/-- C8: for every `f` (scalar or array), `rq` and `sigma0`, calling the
impedance evaluator with `x0` omitted (`x0 = None`) returns exactly the same
result as calling it with `x0 = -5*rq` explicitly. -/
theorem default_x0_eq_explicit (H : Hyp) (f : PyVal) (rq sigma0 : ℝ) :
    surface_impedance H f rq none sigma0 =
      surface_impedance H f rq (some (-5 * rq)) sigma0 := rfl

/-- C5: `rough_properties` returns the triple `(Z, cond_eff, mu_eff)` with
`Z` the surface impedance on the same inputs,
`cond_eff = mu0 * (2*pi*f) / (2 * Re(Z)^2)` and
`mu_eff = 2 * sigma0 * Im(Z)^2 / (2*pi*f) / mu0`. -/
theorem rough_properties_formulas (H : Hyp) (f rq : ℝ) (x0 : Option ℝ)
    (sigma0 : ℝ) :
    rough_properties H f rq x0 sigma0 =
      (surface_impedance_scalar H f rq x0 sigma0,
       mu_0 * (2 * π * f) /
         (2 * (surface_impedance_scalar H f rq x0 sigma0).re ^ 2),
       2 * sigma0 * (surface_impedance_scalar H f rq x0 sigma0).im ^ 2 /
         (2 * π * f) / mu_0) := rfl

/-- C6: when both `x` and `f` are multi-element ndarrays, `mag_field` raises
the shape error, for every hypergeometric backend and every numeric input:
the error is decided by the shape test alone, before any numeric work. -/
theorem mag_field_shape_error (H : Hyp) (xs fs : List ℝ) (rq sigma0 : ℝ)
    (hx : 1 < xs.length) (hf : 1 < fs.length) :
    mag_field H (.ndarr xs) (.ndarr fs) rq sigma0 =
        .error .invalidInputShape ∧
      mag_branch (.ndarr xs) (.ndarr fs) = .error .invalidInputShape := by
  have h1 : isMultiArray (.ndarr xs) = true := by
    simpa [isMultiArray] using hx
  have h2 : isMultiArray (.ndarr fs) = true := by
    simpa [isMultiArray] using hf
  refine ⟨?_, ?_⟩ <;> simp [mag_field, mag_branch, h1, h2]

/-- Witness for C6 at `xs = [0,1]`, `fs = [1,2]`. -/
theorem mag_field_shape_error_witness :
    1 < ([0, 1] : List ℝ).length ∧ 1 < ([1, 2] : List ℝ).length ∧
      mag_field Htriv (.ndarr [0, 1]) (.ndarr [1, 2]) 1 1 =
        .error .invalidInputShape :=
  ⟨by simp, by simp,
    (mag_field_shape_error Htriv [0, 1] [1, 2] 1 1 (by simp) (by simp)).1⟩

/-- C10 counterexample: with both inputs plain lists, or both length-1
ndarrays, `mag_field` does not proceed down the scalar evaluation path to a
value: the call dies with a `TypeError` (for lists already in
`w = 2 * pi * f` at line 53, before the dispatch; for length-1 ndarrays
inside the scalar branch's `hyp2f1` call at line 78, which rejects ndarray
arguments), even though the branch conditionals select the scalar branch. -/
theorem shape_check_uncaught_type_error :
    mag_field Htriv (.pylist [0]) (.pylist [1]) 1 1 = .error .typeError ∧
      mag_field Htriv (.ndarr [0]) (.ndarr [1]) 1 1 = .error .typeError ∧
      mag_branch (.pylist [0]) (.pylist [1]) = .ok .scalarPath ∧
      mag_branch (.ndarr [0]) (.ndarr [1]) = .ok .scalarPath :=
  ⟨rfl, rfl, rfl, rfl⟩

/-- C10 amended: the shape check treats an input as a multi-element sequence
only when it is an ndarray of length greater than one, so two length-1
ndarrays or two plain Python lists never raise the InvalidInputShape error,
and the branch conditionals select the scalar evaluation branch; the call
nevertheless returns no value: the unchecked inputs hit a `TypeError` in the
numeric work (for lists in the prelude `w = 2 * pi * f`, before the
dispatch; for length-1 ndarrays in the scalar branch's hypergeometric call,
whose backend accepts only scalars), for every backend and all numerics. -/
theorem shape_check_ndarray_only (H : Hyp) (a b : ℝ) (xs fs : List ℝ)
    (rq sigma0 : ℝ) :
    mag_branch (.ndarr [a]) (.ndarr [b]) = .ok .scalarPath ∧
      mag_branch (.pylist xs) (.pylist fs) = .ok .scalarPath ∧
      mag_field H (.pylist xs) (.pylist fs) rq sigma0 = .error .typeError ∧
      mag_field H (.ndarr [a]) (.ndarr [b]) rq sigma0 = .error .typeError ∧
      mag_field H (.pylist xs) (.pylist fs) rq sigma0 ≠
        .error .invalidInputShape ∧
      mag_field H (.ndarr [a]) (.ndarr [b]) rq sigma0 ≠
        .error .invalidInputShape := by
  refine ⟨rfl, rfl, rfl, rfl, ?_, ?_⟩ <;> simp [mag_field, isMultiArray, isPyList]

/-- C9 counterexample: at frequency `f = 0` the derived `alpha` is `0`, yet
`surface_impedance` surfaces no error at all: it returns the ordinary value
`0` (the unguarded divisions by `alpha` and by `mag` are absorbed by the
total-division semantics of the embedding; the code has no check). -/
theorem alpha_zero_no_error :
    alpha 0 1 1 = 0 ∧
      surface_impedance Htriv (.scalar 0) 1 none 1 = .ok (.inl 0) ∧
      surface_impedance Htriv (.scalar 0) 1 none 1 ≠
        .error .domainDegeneracy := by
  have ha : alpha 0 1 1 = 0 := by
    simp [alpha]
  refine ⟨ha, ?_, ?_⟩
  · simp [surface_impedance, isMultiArray, num, surface_impedance_scalar]
  · simp [surface_impedance, isMultiArray]

/-- C9 amended: the impedance evaluator contains no degeneracy check at all:
for every backend and every input (including `alpha = 0` or `mag = 0`) it
returns an ordinary value, never an error. -/
theorem surface_impedance_never_errors (H : Hyp) (f : PyVal) (rq : ℝ)
    (x0 : Option ℝ) (sigma0 : ℝ) :
    ∃ v, surface_impedance H f rq x0 sigma0 = .ok v := by
  unfold surface_impedance
  split <;> exact ⟨_, rfl⟩

/-- C3: the derived parameters satisfy
`alpha = (1+i)/2 * rq * sqrt(mu0 * 2*pi*f * sigma0)` and
`beta = 0.5 * (sqrt(1 + 4*alpha^2) - 1)` with the complex square root on the
principal branch (`sqrt z = exp(log z / 2)` with the principal logarithm);
`mag_field` and `surface_impedance` share the very same derivation
(`alpha`/`beta` below embed the two textually identical source sites). -/
theorem alpha_beta_derivation (f rq sigma0 : ℝ) (hf : 0 < f) (hrq : 0 < rq)
    (hs : 0 < sigma0) :
    alpha f rq sigma0 = alpha_spec f rq sigma0 ∧
      beta f rq sigma0 = beta_spec f rq sigma0 ∧
      beta f rq sigma0 =
        0.5 * (Complex.exp
          (Complex.log (1 + 4 * alpha f rq sigma0 ^ 2) * (1 / 2)) - 1) := by
  refine ⟨rfl, rfl, ?_⟩
  have hform : alpha f rq sigma0 =
      (1 + I) * ((rq * Real.sqrt (mu_0 * (2 * π * f) * sigma0) / 2 : ℝ) : ℂ) := by
    simp only [alpha]
    push_cast
    ring
  have h2 : (1 : ℂ) + 4 * alpha f rq sigma0 ^ 2 =
      1 + ((8 * (rq * Real.sqrt (mu_0 * (2 * π * f) * sigma0) / 2) ^ 2 : ℝ) : ℂ) * I := by
    rw [hform]
    push_cast
    ring_nf
    simp [Complex.I_sq]
  have key : ∀ t : ℝ, (1 : ℂ) + (t : ℂ) * I ≠ 0 := by
    intro t h
    have hre := congrArg Complex.re h
    simp at hre
  have hne : (1 : ℂ) + 4 * alpha f rq sigma0 ^ 2 ≠ 0 := by
    rw [h2]
    exact key _
  rw [show beta f rq sigma0 =
      0.5 * (csqrt (1 + 4 * alpha f rq sigma0 ^ 2) - 1) from rfl,
    csqrt, Complex.cpow_def_of_ne_zero hne]

/-- Witness for C3 at `f = rq = sigma0 = 1`. -/
theorem alpha_beta_derivation_witness :
    (0 : ℝ) < 1 ∧ alpha 1 1 1 = alpha_spec 1 1 1 :=
  ⟨by norm_num,
    (alpha_beta_derivation 1 1 1 (by norm_num) (by norm_num) (by norm_num)).1⟩

/-- C4: `zeta` is the logistic map of the spec, lies strictly between 0 and
1, tends to 1 as the position tends to `-∞` and to 0 as it tends to `+∞`. -/
theorem zeta_logistic (rq : ℝ) (hrq : 0 < rq) :
    (∀ x, zeta x rq = zeta_spec x rq) ∧
      (∀ x, zeta x rq ∈ Set.Ioo (0 : ℝ) 1) ∧
      Tendsto (fun x => zeta x rq) atBot (nhds 1) ∧
      Tendsto (fun x => zeta x rq) atTop (nhds 0) := by
  have hchi : 0 < chi rq := mul_pos (Real.sqrt_pos.mpr two_pos) hrq
  refine ⟨fun x => rfl, fun x => ?_, ?_, ?_⟩
  · constructor
    · apply div_pos one_pos
      positivity
    · rw [zeta, div_lt_one (by positivity)]
      linarith [Real.exp_pos (2 * (x / chi rq + xi))]
  · have h1 : Tendsto (fun x : ℝ => 2 * (x / chi rq + xi)) atBot atBot :=
      Tendsto.const_mul_atBot two_pos
        (tendsto_atBot_add_const_right _ xi (Tendsto.atBot_div_const hchi tendsto_id))
    have h2 : Tendsto (fun x : ℝ => Real.exp (2 * (x / chi rq + xi))) atBot
        (nhds 0) := Real.tendsto_exp_atBot.comp h1
    have h3 : Tendsto (fun x : ℝ => 1 + Real.exp (2 * (x / chi rq + xi)))
        atBot (nhds 1) := by
      simpa using tendsto_const_nhds.add h2
    have h4 : Tendsto (fun x : ℝ => 1 / (1 + Real.exp (2 * (x / chi rq + xi))))
        atBot (nhds (1 / 1)) := Tendsto.div tendsto_const_nhds h3 one_ne_zero
    simpa [zeta] using h4
  · have h1 : Tendsto (fun x : ℝ => 2 * (x / chi rq + xi)) atTop atTop :=
      Tendsto.const_mul_atTop two_pos
        (tendsto_atTop_add_const_right _ xi (Tendsto.atTop_div_const hchi tendsto_id))
    have h2 : Tendsto (fun x : ℝ => 1 + Real.exp (2 * (x / chi rq + xi)))
        atTop atTop :=
      tendsto_atTop_add_const_left _ 1 (Real.tendsto_exp_atTop.comp h1)
    have h3 : Tendsto (fun x : ℝ => (1 + Real.exp (2 * (x / chi rq + xi)))⁻¹)
        atTop (nhds 0) := h2.inv_tendsto_atTop
    simpa [zeta, one_div] using h3

/-- Witness for C4 at `rq = 1`. -/
theorem zeta_logistic_witness :
    (0 : ℝ) < 1 ∧ Tendsto (fun x => zeta x 1) atBot (nhds 1) :=
  ⟨by norm_num, (zeta_logistic 1 (by norm_num)).2.2.1⟩

/-- C1: for positive inputs and any position `x0`, the scalar impedance
computed by the code equals the spec's formula: the antiderivative
`bb = (chi/2) * zeta^alpha * (zeta/(1+alpha) * f1 - f0/alpha)` with the `f1`
parameter set shifted by `+1` in the third upper and second lower slot, and
`Z = -i * mu0 * (2*pi*f) * bb / mag` with `mag` the field value at `x0`. -/
theorem surface_impedance_matches_spec (H : Hyp) (f rq sigma0 x0v : ℝ)
    (hf : 0 < f) (hrq : 0 < rq) (hs : 0 < sigma0) :
    surface_impedance_scalar H f rq (some x0v) sigma0 =
      surface_impedance_spec H f rq x0v sigma0 := by
  simp only [surface_impedance_scalar, surface_impedance_spec, mag_field_spec,
    mag_scalar, alpha_spec, beta_spec, zeta_spec, zeta, chi, xi, alpha, beta,
    Option.getD]
  ring_nf

/-- Witness for C1 at `H = Htriv`, `f = rq = sigma0 = 1`, `x0 = 0`. -/
theorem surface_impedance_matches_spec_witness :
    (0 : ℝ) < 1 ∧
      surface_impedance_scalar Htriv 1 1 (some 0) 1 =
        surface_impedance_spec Htriv 1 1 0 1 :=
  ⟨by norm_num,
    surface_impedance_matches_spec Htriv 1 1 1 0 (by norm_num) (by norm_num)
      (by norm_num)⟩

/-- C2: `mag_field` evaluates the spec's formula
`zeta^alpha * 2F1(alpha+beta, alpha-beta-1; 1+2*alpha; zeta)`: once for
scalar inputs, elementwise over the positions when `x` is a multi-element
array, elementwise over the frequencies when `f` is, the result shaped like
whichever input varied (a list of matching length). -/
theorem mag_field_evaluates_spec_formula (H : Hyp) (x f rq sigma0 : ℝ)
    (xs fs : List ℝ) (hxs : 1 < xs.length) (hfs : 1 < fs.length) :
    mag_field H (.scalar x) (.scalar f) rq sigma0 =
        .ok (.inl (mag_field_spec H x f rq sigma0)) ∧
      mag_field H (.ndarr xs) (.scalar f) rq sigma0 =
        .ok (.inr (xs.map (fun t => mag_field_spec H t f rq sigma0))) ∧
      mag_field H (.scalar x) (.ndarr fs) rq sigma0 =
        .ok (.inr (fs.map (fun t => mag_field_spec H x t rq sigma0))) := by
  have h1 : isMultiArray (.ndarr xs) = true := by
    simpa [isMultiArray] using hxs
  have h2 : isMultiArray (.ndarr fs) = true := by
    simpa [isMultiArray] using hfs
  refine ⟨rfl, ?_, ?_⟩
  · simp only [mag_field, mag_branch, h1, isMultiArray, Bool.and_false,
      Bool.false_and, if_neg, if_pos, elems, num]
    simp [hxs, isPyList, mag_xarray_eq_map, mag_scalar_eq_spec]
  · simp only [mag_field, mag_branch, h2, isMultiArray, Bool.false_and,
      if_neg, if_pos, elems, num]
    simp [hfs, isPyList, mag_farray_eq_map, mag_scalar_eq_spec]

/-- Witness for C2 at `xs = [0, 1]`, `fs = [1, 2]`. -/
theorem mag_field_evaluates_spec_formula_witness :
    1 < ([0, 1] : List ℝ).length ∧ 1 < ([1, 2] : List ℝ).length ∧
      mag_field Htriv (.scalar 0) (.ndarr [1, 2]) 1 1 =
        .ok (.inr (([1, 2] : List ℝ).map
          (fun t => mag_field_spec Htriv 0 t 1 1))) :=
  ⟨by simp, by simp,
    (mag_field_evaluates_spec_formula Htriv 0 1 1 1 [0, 1] [1, 2] (by simp)
      (by simp)).2.2⟩

/-- C7: batch evaluation of `surface_impedance` over a multi-element
frequency array equals the independent scalar evaluation at each frequency
(the batch path computes `alpha`, `beta`, `f0`, `f1`, `bb`, `mag`
elementwise, with `zeta` and `chi` fixed at the single position `x0`). -/
theorem surface_impedance_elementwise (H : Hyp) (fs : List ℝ) (rq : ℝ)
    (x0 : Option ℝ) (sigma0 : ℝ) (h : 1 < fs.length) :
    surface_impedance H (.ndarr fs) rq x0 sigma0 =
      .ok (.inr (fs.map (fun f => surface_impedance_scalar H f rq x0 sigma0))) := by
  have h1 : isMultiArray (.ndarr fs) = true := by
    simpa [isMultiArray] using h
  simp [surface_impedance, h1, elems, surface_impedance_batch_eq_map]

/-- Witness for C7 at `fs = [1, 2]`. -/
theorem surface_impedance_elementwise_witness :
    1 < ([1, 2] : List ℝ).length ∧
      surface_impedance Htriv (.ndarr [1, 2]) 1 none 1 =
        .ok (.inr (([1, 2] : List ℝ).map
          (fun f => surface_impedance_scalar Htriv f 1 none 1))) :=
  ⟨by simp, surface_impedance_elementwise Htriv [1, 2] 1 none 1 (by simp)⟩

end

end GradientModel
